import Mathlib

/-!
Shallow embedding of the `ldc` interactive shell's core: the
edit-diff-patch workflow (`editFile` and its console helpers from the
`cmd` package) and the `deleteProject` command.

Modelling conventions:
* A byte sequence round-tripped through the external editor is a `Bytes`
  value: the raw string together with its JSON parse (the parse function
  itself, `encoding/json`, is external to the repository, so a byte
  string is paired with its interpretation).
* Console input is a finite script of lines; each `ReadLine` consumes one.
* The unbounded `for` loop of `editFile` is driven by a finite script of
  per-iteration external events (temp-file creation, editor spawn/wait,
  read-back, removal); a run whose script is exhausted is `stuck`,
  a model artifact that no theorem relies on.
* The diff engine (`jsonpatch.CreatePatch`, a third-party library) is a
  function parameter of the workflow; where a claim needs its concrete
  behaviour, `createPatchModel` models it from the spec.
-/

namespace Ldc

/-- A JSON document tree (model of a parsed `encoding/json` value). -/
inductive Json where
  | null : Json
  | bool (b : Bool) : Json
  | num (n : Int) : Json
  | str (s : String) : Json
  | arr (elems : List Json) : Json
  | obj (fields : List (String × Json)) : Json

mutual

/-- Structural equality of JSON documents (Go's `reflect.DeepEqual` view
used by the diff engine: independent of the raw byte formatting). -/
def Json.beq : Json → Json → Bool
  | .null, .null => true
  | .bool x, .bool y => x == y
  | .num x, .num y => x == y
  | .str x, .str y => x == y
  | .arr xs, .arr ys => Json.beqList xs ys
  | .obj fs, .obj gs => Json.beqFields fs gs
  | _, _ => false

/-- Elementwise `Json.beq` on arrays. -/
def Json.beqList : List Json → List Json → Bool
  | [], [] => true
  | a :: as, b :: bs => Json.beq a b && Json.beqList as bs
  | _, _ => false

/-- Elementwise `Json.beq` on object fields (order-sensitive). -/
def Json.beqFields : List (String × Json) → List (String × Json) → Bool
  | [], [] => true
  | (k, v) :: fs, (l, w) :: gs => k == l && Json.beq v w && Json.beqFields fs gs
  | _, _ => false

end

/-- A byte sequence together with its JSON interpretation: `parsed = none`
means the bytes do not parse as JSON. Two `Bytes` with equal `parsed`
values are semantically identical even if `raw` differs (whitespace,
formatting). -/
structure Bytes where
  raw : String
  parsed : Option Json

/-- Model of `jsonpatch.JsonPatchOperation` (the diff engine's output). -/
structure JsonPatchOperation where
  Operation : String
  Path : String
  Value : Json

/-- Model of `ldapi.PatchOperation` (the outbound wire operation);
`Value` is a pointer in Go, hence `Option`. -/
structure PatchOperation where
  Op : String
  Path : String
  Value : Option Json

/-- Model of `ldapi.PatchComment`. -/
structure PatchComment where
  Patch : List PatchOperation
  Comment : String

/-- Content of the shared `op` range variable after the assembly loop of
`editFile` (part_000 lines 172-178) has run: the value of the last diff
operation, or nothing when the loop did not run. -/
def lastValue : List JsonPatchOperation → Option Json
  | [] => none
  | [op] => some op.Value
  | _ :: rest => lastValue rest

/-- The patch assembly of `editFile` (part_000 lines 171-178):
`for _, op := range patchOps` appends
`ldapi.PatchOperation{Op: op.Operation, Path: op.Path, Value: &op.Value}`.
Under this module's pre-Go-1.22 range semantics `op` is a single
variable for the whole loop, so every appended `Value` is the same
pointer into that variable; when the returned PatchComment is read
after the loop, each operation therefore carries the value of the LAST
diff operation, while `Op` and `Path` are copied per operation. -/
def assemblePatch (ops : List JsonPatchOperation) : List PatchOperation :=
  ops.map fun op =>
    { Op := op.Operation, Path := op.Path, Value := lastValue ops }

/-- One `c.ReadLine()` against a finite input script: consumes the head
line, or yields `""` on an exhausted script. -/
def readLine : List String → String × List String
  | [] => ("", [])
  | s :: rest => (s, rest)

/-- Model of Go's `strings.ToLower` (characterwise case mapping; the
ASCII mapping suffices here because its result is only ever compared
against the one-letter string `"y"`, and `"y"` is the lowercase image of
`"Y"` alone). -/
def toLowerStr (s : String) : String :=
  ⟨s.data.map Char.toLower⟩

/-- `yesOrNo` (part_000 lines 192-198): the read line is a yes iff it is
empty or its lowercase form is `"y"`. -/
def yesOrNo (val : String) : Bool :=
  val = "" || toLowerStr val = "y"

/-- `isInteractive` (part_000 lines 213-215): `reflect.DeepEqual` of the
session's `interactive` value against `true`; the flag may be unset
(`none`) or set to a boolean. -/
def isInteractive (flag : Option Bool) : Bool :=
  flag = some true

/-- Result of `confirmDelete`, recording the returned boolean and whether
the console was touched (prompt printed / line read). -/
structure ConfirmResult where
  result : Bool
  prompted : Bool
  readInput : Bool
deriving DecidableEq, Repr

/-- `confirmDelete` (part_000 lines 31-38): skip confirmation when not
interactive; otherwise prompt, read a line and compare it to
`expectedValue` with Go's `==` on strings. -/
def confirmDelete (interactiveFlag : Option Bool) (input : String)
    (expectedValue : String) : ConfirmResult :=
  if ¬ isInteractive interactiveFlag then
    { result := true, prompted := false, readInput := false }
  else
    { result := input = expectedValue, prompted := true, readInput := true }

/-- Model of `ldapi.Project` restricted to the field `deleteProject`
touches. -/
structure Project where
  Key : String
deriving DecidableEq, Repr

/-- How a `deleteProject` invocation ends. -/
inductive DeleteOutcome where
  /-- the `if project != nil { return }` at line 192-194 fired -/
  | earlyReturn : DeleteOutcome
  /-- a nil `*ldapi.Project` was dereferenced (Go run-time panic) -/
  | nilPanic : DeleteOutcome
  /-- the `DeleteProject` API call was issued -/
  | deleteCalled : DeleteOutcome
  /-- fell off the end without calling the API -/
  | fellThrough : DeleteOutcome
deriving DecidableEq, Repr

/-- Dereference of a possibly-nil `*ldapi.Project` for its `Key` field:
nil yields a run-time panic, modelled as `none`. -/
def derefKey : Option Project → Option String
  | none => none
  | some p => some p.Key

/-- `deleteProject` (src/cmd/project.go lines 190-204): bind the lookup
result, return early when it is non-nil, then evaluate
`confirmDelete(c, "project key", project.Key)` — whose argument
dereferences the pointer — and finally guard the API call on
`project != nil` again. -/
def deleteProject (projectArg : Option Project) (interactiveFlag : Option Bool)
    (input : String) : DeleteOutcome :=
  if projectArg ≠ none then
    .earlyReturn
  else
    match derefKey projectArg with
    | none => .nilPanic
    | some key =>
      let _ := confirmDelete interactiveFlag input key
      if projectArg ≠ none then
        .deleteCalled
      else
        .fellThrough

/-- One iteration's external-world outcomes for the `editFile` loop body
(part_000 lines 98-164), in source order: `ioutil.TempFile` (`none` =
failure, `some name` = the allocated scratch-file name), `file.Write`,
the first `file.Close`, `os.StartProcess`, `proc.Wait`, `os.Open`,
`ioutil.ReadAll` (`readData` is what it returned — possibly truncated
bytes when `readOk = false`), `os.Remove`, and the second `file.Close`. -/
structure IterEvent where
  tempFile : Option String
  writeOk : Bool
  closeOk : Bool
  spawnOk : Bool
  waitOk : Bool
  openOk : Bool
  readData : Bytes
  readOk : Bool
  removeOk : Bool
  close2Ok : Bool

/-- The fatal error kinds of `editFile` (each `return nil, err` site). -/
inductive EditErr where
  | resolveErr : EditErr
  | tempFileErr : EditErr
  | writeErr : EditErr
  | closeErr : EditErr
  | spawnErr : EditErr
  | waitErr : EditErr
  | openErr : EditErr
  | close2Err : EditErr
deriving DecidableEq, Repr

/-- State threaded through the `editFile` loop: the `current` seed bytes,
the `patchOps` variable, every scratch-file name ever created, the
scratch files currently existing on disk, and the remaining console
input script. -/
structure LoopState where
  current : Bytes
  patchOps : List JsonPatchOperation
  created : List String
  files : List String
  inputs : List String

/-- How the `for` loop of `editFile` ends. -/
inductive LoopOut where
  /-- a `return nil, err` inside the loop body -/
  | fatal (e : EditErr) : LoopOut
  /-- `break`, with the value of `patchOps` at that point -/
  | finished (ops : List JsonPatchOperation) : LoopOut
  /-- the iteration script ran out (model artifact) -/
  | stuck : LoopOut

/-- Lines 143-164 of the loop body, reached unless the read-failure
prompt was answered no: the second `file.Close()`, then
`jsonpatch.CreatePatch(original, newData)`. A diff failure resets
`patchOps`, prompts, and either breaks (answer no) or re-seeds `current`
with `newData` and continues (answer yes). `Sum.inl` ends the loop;
`Sum.inr` is `continue` with the new state. -/
def validateStep (cp : Bytes → Bytes → Except String (List JsonPatchOperation))
    (original : Bytes) (e : IterEvent) (st : LoopState) :
    (LoopOut × LoopState) ⊕ LoopState :=
  if ¬ e.close2Ok then .inl (.fatal .close2Err, st)
  else
    match cp original e.readData with
    | .error _ =>
      let ans := (readLine st.inputs).1
      let rest := (readLine st.inputs).2
      let st2 := { st with patchOps := [], inputs := rest }
      if ¬ yesOrNo ans then .inl (.finished st2.patchOps, st2)
      else .inr { st2 with current := e.readData }
    | .ok ops => .inl (.finished ops, { st with patchOps := ops })

/-- The `for` loop of `editFile` (part_000 lines 97-165), one `IterEvent`
per iteration. Each fallible step short-circuits with its fatal error;
`os.Remove` failure only warns (the file stays in `files`); a read
failure prompts "Try again?" before the second close, and an answer of
no breaks out of the loop with the current `patchOps`. -/
def editLoop (cp : Bytes → Bytes → Except String (List JsonPatchOperation))
    (original : Bytes) :
    List IterEvent → LoopState → LoopOut × LoopState
  | [], st => (.stuck, st)
  | e :: rest, st =>
    match e.tempFile with
    | none => (.fatal .tempFileErr, st)
    | some name =>
      let st1 := { st with created := st.created ++ [name],
                           files := st.files ++ [name] }
      if ¬ e.writeOk then (.fatal .writeErr, st1)
      else if ¬ e.closeOk then (.fatal .closeErr, st1)
      else if ¬ e.spawnOk then (.fatal .spawnErr, st1)
      else if ¬ e.waitOk then (.fatal .waitErr, st1)
      else if ¬ e.openOk then (.fatal .openErr, st1)
      else
        let files2 := if e.removeOk then st1.files.erase name else st1.files
        let st2 := { st1 with files := files2 }
        if ¬ e.readOk then
          let ans := (readLine st2.inputs).1
          let rest2 := (readLine st2.inputs).2
          let st3 := { st2 with inputs := rest2 }
          if ¬ yesOrNo ans then (.finished st3.patchOps, st3)
          else
            match validateStep cp original e st3 with
            | .inl r => r
            | .inr st4 => editLoop cp original rest st4
        else
          match validateStep cp original e st2 with
          | .inl r => r
          | .inr st4 => editLoop cp original rest st4

/-- The observable result of one `editFile` call: Go's
`(*ldapi.PatchComment, error)` pair. -/
inductive Outcome where
  /-- `return nil, err` -/
  | fatalErr (e : EditErr) : Outcome
  /-- `return nil, nil` (lines 167-169) -/
  | noPatch : Outcome
  /-- `return &patchComment, nil` (line 182) -/
  | patch (pc : PatchComment) : Outcome
  /-- the model's iteration script ran out -/
  | stuck : Outcome

/-- The full observable effect of one `editFile` call. -/
structure EditResult where
  outcome : Outcome
  created : List String
  filesLeft : List String
  inputsLeft : List String
  commentPrompted : Bool

/-- The loop state on entry to the `for` loop (part_000 lines 95-96):
`current := original`, `patchOps` nil, nothing created yet, the full
console script pending. -/
def initState (original : Bytes) (inputs : List String) : LoopState :=
  { current := original, patchOps := [], created := [], files := [],
    inputs := inputs }

/-- `editFile` (part_000 lines 85-183). `resolveOk` is whether
`command -v <editor>` succeeded; `cp` is the diff engine
(`jsonpatch.CreatePatch`); `events` scripts the external world for each
loop iteration and `inputs` scripts the console lines. After the loop,
an empty `patchOps` returns `(nil, nil)`; otherwise the operations are
assembled by `assemblePatch`, the comment prompt reads one line, and the
assembled `PatchComment` is returned. -/
def editFile (resolveOk : Bool) (original : Bytes)
    (cp : Bytes → Bytes → Except String (List JsonPatchOperation))
    (events : List IterEvent) (inputs : List String) : EditResult :=
  if ¬ resolveOk then
    { outcome := .fatalErr .resolveErr, created := [], filesLeft := [],
      inputsLeft := inputs, commentPrompted := false }
  else
    match editLoop cp original events (initState original inputs) with
    | (.fatal e, st) =>
      { outcome := .fatalErr e, created := st.created, filesLeft := st.files,
        inputsLeft := st.inputs, commentPrompted := false }
    | (.stuck, st) =>
      { outcome := .stuck, created := st.created, filesLeft := st.files,
        inputsLeft := st.inputs, commentPrompted := false }
    | (.finished ops, st) =>
      if ops.isEmpty then
        { outcome := .noPatch, created := st.created, filesLeft := st.files,
          inputsLeft := st.inputs, commentPrompted := false }
      else
        { outcome := .patch { Patch := assemblePatch ops,
                              Comment := (readLine st.inputs).1 },
          created := st.created, filesLeft := st.files,
          inputsLeft := (readLine st.inputs).2, commentPrompted := true }

/-- Modelled from the spec: the Diff Engine (`jsonpatch.CreatePatch`,
third-party library code absent from this repository). Per spec §4.4,
both inputs must parse as JSON, otherwise it fails with
`Invalid JSON Document`; semantically identical documents yield the
empty operation list; differing documents yield a non-empty,
deterministic operation list (modelled as a single whole-document
replace — the claims settled against this model depend only on
emptiness versus failure, not on the exact operations). -/
def createPatchModel (a b : Bytes) : Except String (List JsonPatchOperation) :=
  match a.parsed, b.parsed with
  | some ja, some jb =>
    if Json.beq ja jb then .ok []
    else .ok [{ Operation := "replace", Path := "", Value := jb }]
  | _, _ => .error "Invalid JSON Document"

/-- An iteration in which every system call succeeds and the editor
leaves `data` in the scratch file named `name`. -/
def okEvent (name : String) (data : Bytes) : IterEvent :=
  { tempFile := some name, writeOk := true, closeOk := true, spawnOk := true,
    waitOk := true, openOk := true, readData := data, readOk := true,
    removeOk := true, close2Ok := true }

/-- Projection of `validateStep` onto the observables that determine the
loop's outcome: the `patchOps` value carried out and the remaining
console input (`Sum.inr` is `continue`, whose re-seeded state always has
empty `patchOps`). Related to `validateStep` by
`validateStep_simulation`. -/
def validateOut (cp : Bytes → Bytes → Except String (List JsonPatchOperation))
    (original : Bytes) (e : IterEvent) (ins : List String) :
    (LoopOut × List String) ⊕ List String :=
  if ¬ e.close2Ok then .inl (.fatal .close2Err, ins)
  else
    match cp original e.readData with
    | .error _ =>
      if ¬ yesOrNo (readLine ins).1 then .inl (.finished [], (readLine ins).2)
      else .inr (readLine ins).2
    | .ok ops => .inl (.finished ops, ins)

/-- Projection of `editLoop` onto the loop outcome and the remaining
console input: these two observables depend only on the iteration
script, the console script and the current `patchOps` value, not on the
file-system bookkeeping. Related to `editLoop` by `editLoop_simulation`. -/
def editLoopOut (cp : Bytes → Bytes → Except String (List JsonPatchOperation))
    (original : Bytes) :
    List IterEvent → List JsonPatchOperation → List String →
    LoopOut × List String
  | [], _, ins => (.stuck, ins)
  | e :: rest, ops, ins =>
    match e.tempFile with
    | none => (.fatal .tempFileErr, ins)
    | some _ =>
      if ¬ e.writeOk then (.fatal .writeErr, ins)
      else if ¬ e.closeOk then (.fatal .closeErr, ins)
      else if ¬ e.spawnOk then (.fatal .spawnErr, ins)
      else if ¬ e.waitOk then (.fatal .waitErr, ins)
      else if ¬ e.openOk then (.fatal .openErr, ins)
      else if ¬ e.readOk then
        if ¬ yesOrNo (readLine ins).1 then (.finished ops, (readLine ins).2)
        else
          match validateOut cp original e (readLine ins).2 with
          | .inl r => r
          | .inr ins2 => editLoopOut cp original rest [] ins2
      else
        match validateOut cp original e ins with
        | .inl r => r
        | .inr ins2 => editLoopOut cp original rest [] ins2

/-- The observable outcome of `editFile` as a function of the loop's
outcome and the console input remaining at the comment prompt. -/
def outcomeOf : LoopOut × List String → Outcome
  | (.fatal e, _) => .fatalErr e
  | (.stuck, _) => .stuck
  | (.finished ops, ins) =>
    if ops.isEmpty then .noPatch
    else .patch { Patch := assemblePatch ops, Comment := (readLine ins).1 }

/-- One recoverable retry round of the `editFile` loop: every system
call of the iteration succeeds, the candidate bytes fail the diff
engine, and the user answers yes at the "Make changes?" prompt
(`p.1` is the iteration's events, `p.2` the prompt answer). -/
def InvalidYesRound
    (cp : Bytes → Bytes → Except String (List JsonPatchOperation))
    (original : Bytes) (p : IterEvent × String) : Prop :=
  (∃ name, p.1.tempFile = some name) ∧ p.1.writeOk = true ∧
  p.1.closeOk = true ∧ p.1.spawnOk = true ∧ p.1.waitOk = true ∧
  p.1.openOk = true ∧ p.1.readOk = true ∧ p.1.close2Ok = true ∧
  (∃ msg, cp original p.1.readData = .error msg) ∧ yesOrNo p.2 = true

/-- Sample document: the parse of `{"name":"a","key":"k"}`. -/
def jA : Json := .obj [("name", .str "a"), ("key", .str "k")]

/-- Sample document: the parse of `{"name":"b","key":"k"}`. -/
def jB : Json := .obj [("name", .str "b"), ("key", .str "k")]

/-- Sample bytes parsing to `jA`. -/
def bytesA : Bytes :=
  { raw := "\x7b\"name\":\"a\",\"key\":\"k\"\x7d", parsed := some jA }

/-- Sample bytes parsing to `jA` with different whitespace: semantically
identical to `bytesA`, but byte-distinct. -/
def bytesA2 : Bytes :=
  { raw := "\x7b \"name\": \"a\", \"key\": \"k\" \x7d", parsed := some jA }

/-- Sample bytes parsing to `jB`. -/
def bytesB : Bytes :=
  { raw := "\x7b\"name\":\"b\",\"key\":\"k\"\x7d", parsed := some jB }

/-- Sample bytes that do not parse as JSON. -/
def badBytes : Bytes := { raw := "\x7boops", parsed := none }

/-- A scripted diff engine returning a fixed two-operation diff
(`replace /name "b"`, `replace /key "q"`), used to exercise the
multi-operation patch assembly on a concrete run. -/
def twoOpDiff : Bytes → Bytes → Except String (List JsonPatchOperation) :=
  fun _ _ =>
    .ok [{ Operation := "replace", Path := "/name", Value := .str "b" },
         { Operation := "replace", Path := "/key", Value := .str "q" }]

/-! ### Helper lemmas -/

mutual

/-- `Json.beq` is reflexive. -/
theorem Json.beq_refl : ∀ j : Json, Json.beq j j = true
  | .null => rfl
  | .bool b => by simp [Json.beq]
  | .num n => by simp [Json.beq]
  | .str s => by simp [Json.beq]
  | .arr xs => by simp [Json.beq, Json.beqList_refl xs]
  | .obj fs => by simp [Json.beq, Json.beqFields_refl fs]

/-- `Json.beqList` is reflexive. -/
theorem Json.beqList_refl : ∀ xs : List Json, Json.beqList xs xs = true
  | [] => rfl
  | a :: as => by simp [Json.beqList, Json.beq_refl a, Json.beqList_refl as]

/-- `Json.beqFields` is reflexive. -/
theorem Json.beqFields_refl :
    ∀ fs : List (String × Json), Json.beqFields fs fs = true
  | [] => rfl
  | (k, v) :: fs => by
      simp [Json.beqFields, Json.beq_refl v, Json.beqFields_refl fs]

end

/-- `validateStep` and `validateOut` agree on the loop outcome and the
remaining console input. -/
theorem validateStep_simulation
    (cp : Bytes → Bytes → Except String (List JsonPatchOperation))
    (original : Bytes) (e : IterEvent) (st : LoopState) :
    (match validateStep cp original e st with
     | .inl (o, st') => (Sum.inl (o, st'.inputs) :
         (LoopOut × List String) ⊕ List String)
     | .inr st' => Sum.inr st'.inputs)
      = validateOut cp original e st.inputs := by
  simp only [validateStep, validateOut]
  by_cases h2 : e.close2Ok
  · simp only [h2, not_true, if_neg, ite_false]
    cases hcp : cp original e.readData with
    | error msg => by_cases hy : yesOrNo (readLine st.inputs).1 <;> simp [hy]
    | ok ops => simp
  · simp [h2]

/-- A `validateStep` that continues the loop always re-seeds a state with
empty `patchOps`. -/
theorem validateStep_inr_patchOps
    (cp : Bytes → Bytes → Except String (List JsonPatchOperation))
    (original : Bytes) (e : IterEvent) (st st' : LoopState)
    (h : validateStep cp original e st = .inr st') : st'.patchOps = [] := by
  simp only [validateStep] at h
  by_cases h2 : e.close2Ok
  · simp only [h2, not_true, ite_false] at h
    cases hcp : cp original e.readData with
    | error msg =>
      simp only [hcp] at h
      by_cases hy : yesOrNo (readLine st.inputs).1 <;> simp [hy] at h
      subst h
      rfl
    | ok ops => simp [hcp] at h
  · simp [h2] at h

/-- `editLoop` and `editLoopOut` agree: the loop outcome and the
remaining console input depend only on the iteration script, the
`patchOps` value and the console input. -/
theorem editLoop_simulation
    (cp : Bytes → Bytes → Except String (List JsonPatchOperation))
    (original : Bytes) :
    ∀ (events : List IterEvent) (st : LoopState),
      editLoopOut cp original events st.patchOps st.inputs
        = ((editLoop cp original events st).1,
           (editLoop cp original events st).2.inputs) := by
  intro events
  induction events with
  | nil => intro st; rfl
  | cons e rest ih =>
    intro st
    simp only [editLoop, editLoopOut]
    cases htf : e.tempFile with
    | none => rfl
    | some name =>
      simp only []
      by_cases hw : e.writeOk
      case neg => simp [hw]
      case pos =>
      by_cases hc : e.closeOk
      case neg => simp [hw, hc]
      case pos =>
      by_cases hs : e.spawnOk
      case neg => simp [hw, hc, hs]
      case pos =>
      by_cases hwa : e.waitOk
      case neg => simp [hw, hc, hs, hwa]
      case pos =>
      by_cases ho : e.openOk
      case neg => simp [hw, hc, hs, hwa, ho]
      case pos =>
      by_cases hr : e.readOk
      case pos =>
        have hv := validateStep_simulation cp original e
          { st with created := st.created ++ [name],
                    files := if e.removeOk
                             then (st.files ++ [name]).erase name
                             else st.files ++ [name] }
        simp only [hw, hc, hs, hwa, ho, hr, not_true, ite_false]
        cases hvs : validateStep cp original e
            { st with created := st.created ++ [name],
                      files := if e.removeOk
                               then (st.files ++ [name]).erase name
                               else st.files ++ [name] } with
        | inl r =>
          rcases r with ⟨o, st'⟩
          simp only [hvs] at hv
          simp [← hv]
        | inr st4 =>
          simp only [hvs] at hv
          have hp4 := validateStep_inr_patchOps cp original e _ _ hvs
          simp only [← hv]
          have := ih st4
          simp only [hp4] at this
          simp [this]
      case neg =>
        by_cases hy : yesOrNo (readLine st.inputs).1
        case neg => simp [hw, hc, hs, hwa, ho, hr, hy]
        case pos =>
          have hv := validateStep_simulation cp original e
            { st with created := st.created ++ [name],
                      files := if e.removeOk
                               then (st.files ++ [name]).erase name
                               else st.files ++ [name],
                      inputs := (readLine st.inputs).2 }
          simp only [hw, hc, hs, hwa, ho, hr, hy, not_true, ite_false]
          cases hvs : validateStep cp original e
              { st with created := st.created ++ [name],
                        files := if e.removeOk
                                 then (st.files ++ [name]).erase name
                                 else st.files ++ [name],
                        inputs := (readLine st.inputs).2 } with
          | inl r =>
            rcases r with ⟨o, st'⟩
            simp only [hvs] at hv
            simp [← hv]
          | inr st4 =>
            simp only [hvs] at hv
            have hp4 := validateStep_inr_patchOps cp original e _ _ hvs
            simp only [← hv]
            have := ih st4
            simp only [hp4] at this
            simp [this]

/-- Bridge: with the editor resolved, the outcome of `editFile` is
`outcomeOf` of the projected loop run. -/
theorem editFile_outcome
    (cp : Bytes → Bytes → Except String (List JsonPatchOperation))
    (original : Bytes) (events : List IterEvent) (inputs : List String) :
    (editFile true original cp events inputs).outcome
      = outcomeOf (editLoopOut cp original events [] inputs) := by
  have h := editLoop_simulation cp original events (initState original inputs)
  have hops : (initState original inputs).patchOps = [] := rfl
  have hins : (initState original inputs).inputs = inputs := rfl
  rw [hops, hins] at h
  rw [h]
  simp only [editFile, not_true, ite_false]
  rcases hr : editLoop cp original events (initState original inputs) with ⟨o, st⟩
  cases o with
  | fatal e => simp [outcomeOf]
  | stuck => simp [outcomeOf]
  | finished ops =>
    by_cases he : ops.isEmpty <;> simp [outcomeOf, he]

/-- Prepending recoverable retry rounds (each seen by the diff engine as
invalid and answered yes) to an `editFile` run does not change the
projected loop result. -/
theorem editLoopOut_skip_invalid
    (cp : Bytes → Bytes → Except String (List JsonPatchOperation))
    (original : Bytes) :
    ∀ (pre : List (IterEvent × String)) (tail : List IterEvent)
      (inputs : List String),
      (∀ p ∈ pre, InvalidYesRound cp original p) →
      editLoopOut cp original (pre.map Prod.fst ++ tail) []
          (pre.map Prod.snd ++ inputs)
        = editLoopOut cp original tail [] inputs := by
  intro pre
  induction pre with
  | nil => intro tail inputs _; simp
  | cons p pre ih =>
    intro tail inputs hall
    obtain ⟨⟨name, hname⟩, hw, hc, hs, hwa, ho, hr, h2, ⟨msg, hm⟩, hy⟩ :=
      hall p (List.mem_cons_self p pre)
    have hrest : ∀ q ∈ pre, InvalidYesRound cp original q :=
      fun q hq => hall q (List.mem_cons_of_mem p hq)
    simp only [List.map_cons, List.cons_append, editLoopOut, hname, hw, hc,
      hs, hwa, ho, hr, h2, validateOut, hm, readLine, hy, not_true,
      Bool.true_eq_false, if_false, ite_false, not_false_iff, ite_true]
    exact ih tail inputs hrest

/-- Case analysis of `validateOut`: it either fails fatally on the
second close, finishes with the empty (reset) `patchOps`, finishes with
operations produced by the diff engine, or continues the loop. -/
theorem validateOut_cases
    (cp : Bytes → Bytes → Except String (List JsonPatchOperation))
    (original : Bytes) (e : IterEvent) (ins : List String) :
    (∃ ins', validateOut cp original e ins = .inl (.fatal .close2Err, ins'))
    ∨ (∃ ins', validateOut cp original e ins = .inl (.finished [], ins'))
    ∨ (∃ ops ins', validateOut cp original e ins = .inl (.finished ops, ins')
        ∧ cp original e.readData = .ok ops)
    ∨ (∃ ins2, validateOut cp original e ins = .inr ins2) := by
  by_cases h2 : e.close2Ok
  · cases hcp : cp original e.readData with
    | error msg =>
      by_cases hy : yesOrNo (readLine ins).1
      · right; right; right
        exact ⟨(readLine ins).2, by simp [validateOut, h2, hcp, hy]⟩
      · right; left
        exact ⟨(readLine ins).2, by simp [validateOut, h2, hcp, hy]⟩
    | ok ops =>
      right; right; left
      refine ⟨ops, ins, ?_, rfl⟩
      simp [validateOut, h2, hcp]
  · left; exact ⟨ins, by simp [validateOut, h2]⟩

/-- If the projected loop (run with empty `patchOps`, as `editFile` runs
it) finishes with operations `ops`, then either `ops` is empty or some
scripted iteration's candidate bytes produced exactly `ops` through the
diff engine applied to the original. -/
theorem editLoopOut_finished_source
    (cp : Bytes → Bytes → Except String (List JsonPatchOperation))
    (original : Bytes) :
    ∀ (events : List IterEvent) (ins ins' : List String)
      (ops : List JsonPatchOperation),
      editLoopOut cp original events [] ins = (.finished ops, ins') →
      ops = [] ∨ ∃ e ∈ events, cp original e.readData = .ok ops := by
  intro events
  induction events with
  | nil => intro ins ins' ops h; exact absurd h (by simp [editLoopOut])
  | cons e rest ih =>
    intro ins ins' ops h
    simp only [editLoopOut] at h
    cases hname : e.tempFile with
    | none => rw [hname] at h; simp at h
    | some name =>
      rw [hname] at h
      by_cases hw : e.writeOk
      case neg => simp [hw] at h
      case pos =>
      by_cases hc : e.closeOk
      case neg => simp [hw, hc] at h
      case pos =>
      by_cases hs : e.spawnOk
      case neg => simp [hw, hc, hs] at h
      case pos =>
      by_cases hwa : e.waitOk
      case neg => simp [hw, hc, hs, hwa] at h
      case pos =>
      by_cases ho : e.openOk
      case neg => simp [hw, hc, hs, hwa, ho] at h
      case pos =>
      by_cases hr : e.readOk
      case pos =>
        simp only [hw, hc, hs, hwa, ho, hr, not_true, ite_false,
          if_false] at h
        rcases validateOut_cases cp original e ins with
          ⟨ins2, hv⟩ | ⟨ins2, hv⟩ | ⟨ops2, ins2, hv, hcp⟩ | ⟨ins2, hv⟩
        · rw [hv] at h; simp at h
        · rw [hv] at h; simp at h
          exact Or.inl h.1
        · rw [hv] at h; simp at h
          exact Or.inr ⟨e, List.mem_cons_self e rest, h.1 ▸ hcp⟩
        · rw [hv] at h
          rcases ih _ _ _ h with h0 | ⟨e', he', hcp'⟩
          · exact Or.inl h0
          · exact Or.inr ⟨e', List.mem_cons_of_mem e he', hcp'⟩
      case neg =>
        simp only [hw, hc, hs, hwa, ho, hr, not_true, ite_false,
          if_false, not_false_iff, ite_true] at h
        by_cases hy : yesOrNo (readLine ins).1
        case neg =>
          simp only [hy, not_false_iff, ite_true] at h
          simp at h
          exact Or.inl h.1
        case pos =>
          simp only [hy, not_true, ite_false] at h
          rcases validateOut_cases cp original e (readLine ins).2 with
            ⟨ins2, hv⟩ | ⟨ins2, hv⟩ | ⟨ops2, ins2, hv, hcp⟩ | ⟨ins2, hv⟩
          · rw [hv] at h; simp at h
          · rw [hv] at h; simp at h
            exact Or.inl h.1
          · rw [hv] at h; simp at h
            exact Or.inr ⟨e, List.mem_cons_self e rest, h.1 ▸ hcp⟩
          · rw [hv] at h
            rcases ih _ _ _ h with h0 | ⟨e', he', hcp'⟩
            · exact Or.inl h0
            · exact Or.inr ⟨e', List.mem_cons_of_mem e he', hcp'⟩

/-- `createPatchModel` on semantically identical documents is the empty
diff ("no change"). -/
theorem createPatchModel_noChange (a b : Bytes) (j : Json)
    (ha : a.parsed = some j) (hb : b.parsed = some j) :
    createPatchModel a b = .ok [] := by
  simp [createPatchModel, ha, hb, Json.beq_refl]

/-! ### Claim theorems -/

/-- C1 (counterexample): an invalid edit answered `"n"` at the retry
prompt makes `editFile` return `(nil, nil)` — the very same `noPatch`
outcome as a genuine "no change" run, not a distinguishable `Aborted`
error outcome as claimed. -/
theorem C1_counterexample :
    (editFile true bytesA createPatchModel [okEvent "/tmp/ldc1" badBytes]
        ["n"]).outcome = .noPatch
    ∧ (editFile true bytesA createPatchModel [okEvent "/tmp/ldc2" bytesA2]
        []).outcome = .noPatch := by
  exact ⟨rfl, rfl⟩

/-- C1 (amended): answering no (any non-empty input whose lowercase form
is not `"y"`) at the retry prompt after an invalid-document or diff
failure — after any number of earlier recoverable retries — terminates
the workflow with no patch returned or sent; however the return value is
the `(nil, nil)` "no change" result, not a distinguishable Aborted
error. -/
theorem C1_abort_returns_noChange
    (cp : Bytes → Bytes → Except String (List JsonPatchOperation))
    (original : Bytes) (pre : List (IterEvent × String)) (e : IterEvent)
    (a : String) (events : List IterEvent) (inputs : List String)
    (hpre : ∀ p ∈ pre, InvalidYesRound cp original p)
    (hname : ∃ n, e.tempFile = some n) (hw : e.writeOk = true)
    (hc : e.closeOk = true) (hs : e.spawnOk = true) (hwa : e.waitOk = true)
    (ho : e.openOk = true) (hr : e.readOk = true) (h2 : e.close2Ok = true)
    (hm : ∃ msg, cp original e.readData = .error msg)
    (ha : yesOrNo a = false) :
    (editFile true original cp (pre.map Prod.fst ++ e :: events)
        (pre.map Prod.snd ++ a :: inputs)).outcome = .noPatch := by
  rw [editFile_outcome, editLoopOut_skip_invalid cp original pre _ _ hpre]
  obtain ⟨n, hn⟩ := hname
  obtain ⟨msg, hmm⟩ := hm
  simp [editLoopOut, hn, hw, hc, hs, hwa, ho, hr, h2, validateOut, hmm,
    readLine, ha, outcomeOf]

/-- C1 (witness): a run with one recoverable retry and then a `"N"`
answer returns the no-patch result. -/
theorem C1_witness :
    (editFile true bytesA createPatchModel
        [okEvent "/tmp/ldc3" badBytes, okEvent "/tmp/ldc4" badBytes]
        ["y", "N"]).outcome = .noPatch :=
  C1_abort_returns_noChange createPatchModel bytesA
    [(okEvent "/tmp/ldc3" badBytes, "y")] (okEvent "/tmp/ldc4" badBytes)
    "N" [] []
    (by
      intro p hp
      simp only [List.mem_singleton] at hp
      subst hp
      exact ⟨⟨"/tmp/ldc3", rfl⟩, rfl, rfl, rfl, rfl, rfl, rfl, rfl,
        ⟨"Invalid JSON Document", rfl⟩, by decide⟩)
    ⟨"/tmp/ldc4", rfl⟩ rfl rfl rfl rfl rfl rfl rfl
    ⟨"Invalid JSON Document", rfl⟩ (by decide)

/-- C2 (counterexample): when `os.StartProcess` fails after the scratch
file was created, `editFile` returns the fatal spawn error with the
scratch file still existing — the claimed universal cleanup does not
happen on that exit path. -/
theorem C2_counterexample :
    (editFile true bytesA createPatchModel
        [{ okEvent "/tmp/ldc5" bytesB with spawnOk := false }] []).outcome
      = .fatalErr .spawnErr
    ∧ (editFile true bytesA createPatchModel
        [{ okEvent "/tmp/ldc5" bytesB with spawnOk := false }] []).filesLeft
      = ["/tmp/ldc5"] := by
  exact ⟨rfl, rfl⟩

/-- C2 (amended): the scratch file of an iteration is deleted only on
the paths that reach the `os.Remove` call after the editor has run and
the file has been reopened — in particular on the success ("no change"
or patch) and user-abort paths — while a fatal error while spawning or
waiting on the editor or reopening the file returns with the scratch
file still existing. -/
theorem C2_cleanup_paths
    (cp : Bytes → Bytes → Except String (List JsonPatchOperation))
    (original data : Bytes) (name : String) (inputs : List String)
    (a : String) :
    ((∃ ops, cp original data = .ok ops) →
      (editFile true original cp [okEvent name data] inputs).filesLeft = [])
    ∧ ((∃ msg, cp original data = .error msg) → yesOrNo a = false →
      (editFile true original cp [okEvent name data] (a :: inputs)).filesLeft
        = [])
    ∧ (editFile true original cp
        [{ okEvent name data with spawnOk := false }] inputs).filesLeft
      = [name]
    ∧ (editFile true original cp
        [{ okEvent name data with waitOk := false }] inputs).filesLeft
      = [name]
    ∧ (editFile true original cp
        [{ okEvent name data with openOk := false }] inputs).filesLeft
      = [name] := by
  refine ⟨?_, ?_, ?_, ?_, ?_⟩
  · rintro ⟨ops, hcp⟩
    by_cases he : ops.isEmpty <;>
      simp [editFile, editLoop, validateStep, okEvent, initState, hcp, he,
        readLine]
  · rintro ⟨msg, hcp⟩ ha
    simp [editFile, editLoop, validateStep, okEvent, initState, hcp, ha,
      readLine]
  · simp [editFile, editLoop, okEvent, initState]
  · simp [editFile, editLoop, okEvent, initState]
  · simp [editFile, editLoop, okEvent, initState]

/-- C2 (witness): a concrete successful edit run after which the
scratch file no longer exists. -/
theorem C2_witness :
    (editFile true bytesA createPatchModel [okEvent "/tmp/ldcw2" bytesB]
        ["c"]).filesLeft = [] :=
  (C2_cleanup_paths createPatchModel bytesA bytesB "/tmp/ldcw2" ["c"]
    "n").1
    ⟨[{ Operation := "replace", Path := "", Value := jB }], rfl⟩

/-- C3 (counterexample): a read failure whose truncated bytes happen to
be valid changed JSON, answered yes, produces a patch from those bytes
in the same round — the workflow does not return to editing; by
contrast an invalid-document failure answered yes does re-enter the
loop (the single-iteration script is exhausted). -/
theorem C3_counterexample :
    (editFile true bytesA createPatchModel
        [{ okEvent "/tmp/ldc6" bytesB with readOk := false }]
        ["", "c"]).outcome
      = .patch { Patch := [{ Op := "replace", Path := "", Value := some jB }],
                 Comment := "c" }
    ∧ (editFile true bytesA createPatchModel [okEvent "/tmp/ldc7" badBytes]
        [""]).outcome = .stuck := by
  exact ⟨rfl, rfl⟩

/-- C3 (amended): a read failure is recoverable through its own
"Try again?" prompt: answering no ends the workflow with no patch, but
answering yes (or blank) does not immediately return to editing —
instead the workflow falls through and computes the diff between the
original and the partially-read bytes; only if that diff fails does a
second prompt re-seed editing with those bytes, while partial bytes that
parse as changed JSON become a patch right away. -/
theorem C3_read_failure_fallthrough
    (cp : Bytes → Bytes → Except String (List JsonPatchOperation))
    (original data : Bytes) (name : String) (events : List IterEvent)
    (a b : String) (inputs : List String)
    (ops : List JsonPatchOperation) (msg : String) :
    (yesOrNo a = true → cp original data = .ok ops → ops ≠ [] →
      (editFile true original cp
          ({ okEvent name data with readOk := false } :: events)
          (a :: inputs)).outcome
        = .patch { Patch := assemblePatch ops,
                   Comment := (readLine inputs).1 })
    ∧ (yesOrNo a = true → cp original data = .error msg → yesOrNo b = true →
      editLoop cp original
          ({ okEvent name data with readOk := false } :: events)
          (initState original (a :: b :: inputs))
        = editLoop cp original events
            { current := data, patchOps := [], created := [name],
              files := [], inputs := inputs })
    ∧ (yesOrNo a = false →
      (editFile true original cp
          ({ okEvent name data with readOk := false } :: events)
          (a :: inputs)).outcome = .noPatch) := by
  refine ⟨?_, ?_, ?_⟩
  · intro ha hcp hne
    rw [editFile_outcome]
    cases ops with
    | nil => exact absurd rfl hne
    | cons o os =>
      simp [editLoopOut, okEvent, validateOut, hcp, ha, readLine, outcomeOf]
  · intro ha hcp hb
    simp [editLoop, validateStep, okEvent, initState, hcp, ha, hb, readLine]
  · intro ha
    rw [editFile_outcome]
    simp [editLoopOut, okEvent, ha, readLine, outcomeOf]

/-- C3 (witness): concrete runs exercising the three read-failure
branches of the amended statement. -/
theorem C3_witness :
    (editFile true bytesA createPatchModel
        [{ okEvent "/tmp/ldcw3" bytesB with readOk := false }]
        ["y", "why"]).outcome
      = .patch { Patch := [{ Op := "replace", Path := "", Value := some jB }],
                 Comment := "why" } :=
  (C3_read_failure_fallthrough createPatchModel bytesA bytesB "/tmp/ldcw3"
    [] "y" "y" ["why"]
    [{ Operation := "replace", Path := "", Value := jB }] "").1
    (by decide) rfl (by simp)

/-- C4: the diff is always computed between the immutable original and
the latest candidate (structurally, the engine is only ever applied to
`original`), so prepending any number of recoverable invalid-edit
rounds to a run leaves the workflow's outcome — in particular the
resulting `PatchComment` — unchanged. -/
theorem C4_retries_preserve_patch
    (cp : Bytes → Bytes → Except String (List JsonPatchOperation))
    (original : Bytes) (pre : List (IterEvent × String))
    (tail : List IterEvent) (inputs : List String)
    (hpre : ∀ p ∈ pre, InvalidYesRound cp original p) :
    (editFile true original cp (pre.map Prod.fst ++ tail)
        (pre.map Prod.snd ++ inputs)).outcome
      = (editFile true original cp tail inputs).outcome := by
  rw [editFile_outcome, editFile_outcome,
    editLoopOut_skip_invalid cp original pre tail inputs hpre]

/-- C4 (witness): two invalid edits followed by a valid changed edit
give the same outcome as the valid edit alone. -/
theorem C4_witness :
    (editFile true bytesA createPatchModel
        [okEvent "/tmp/ldcw4a" badBytes, okEvent "/tmp/ldcw4b" badBytes,
         okEvent "/tmp/ldcw4c" bytesB] ["y", "", "c"]).outcome
      = (editFile true bytesA createPatchModel [okEvent "/tmp/ldcw4c" bytesB]
          ["c"]).outcome :=
  C4_retries_preserve_patch createPatchModel bytesA
    [(okEvent "/tmp/ldcw4a" badBytes, "y"),
     (okEvent "/tmp/ldcw4b" badBytes, "")]
    [okEvent "/tmp/ldcw4c" bytesB] ["c"]
    (by
      intro p hp
      simp only [List.mem_cons, List.not_mem_nil, or_false] at hp
      rcases hp with hp | hp <;> subst hp
      · exact ⟨⟨"/tmp/ldcw4a", rfl⟩, rfl, rfl, rfl, rfl, rfl, rfl, rfl,
          ⟨"Invalid JSON Document", rfl⟩, by decide⟩
      · exact ⟨⟨"/tmp/ldcw4b", rfl⟩, rfl, rfl, rfl, rfl, rfl, rfl, rfl,
          ⟨"Invalid JSON Document", rfl⟩, by decide⟩)

/-- C5: if the candidate bytes are semantically identical to the
original (same parsed structure and values, independent of whitespace
and formatting), the workflow returns the distinguished "no change"
outcome: no PatchComment is produced and the user is never prompted for
a comment. -/
theorem C5_no_change (original candidate : Bytes) (j : Json)
    (name : String) (inputs : List String)
    (ho : original.parsed = some j) (hc : candidate.parsed = some j) :
    (editFile true original createPatchModel [okEvent name candidate]
        inputs).outcome = .noPatch
    ∧ (editFile true original createPatchModel [okEvent name candidate]
        inputs).commentPrompted = false := by
  have hcp := createPatchModel_noChange original candidate j ho hc
  constructor
  · rw [editFile_outcome]
    simp [editLoopOut, okEvent, validateOut, hcp, outcomeOf]
  · simp [editFile, editLoop, validateStep, okEvent, initState, hcp]

/-- C5 (witness): editing `bytesA` into the byte-distinct but
semantically identical `bytesA2` yields the no-change outcome with no
comment prompt. -/
theorem C5_witness :
    (editFile true bytesA createPatchModel [okEvent "/tmp/ldcw5" bytesA2]
        ["unused"]).outcome = .noPatch
    ∧ (editFile true bytesA createPatchModel [okEvent "/tmp/ldcw5" bytesA2]
        ["unused"]).commentPrompted = false :=
  C5_no_change bytesA bytesA2 jA "/tmp/ldcw5" ["unused"] rfl rfl

/-- C6 (failing input): the diff engine produces the two-operation diff
`[replace /name "b", replace /key "q"]`, yet the returned PatchComment —
assembled through the shared `&op.Value` range-variable pointer —
carries the last operation's value `"q"` on BOTH operations, so the
`/name` operation does not hold its own value `"b"`; op, path, order,
non-emptiness and the exact comment `"c"` are preserved. -/
theorem C6_failing_input :
    twoOpDiff bytesA bytesB
      = .ok [{ Operation := "replace", Path := "/name", Value := .str "b" },
             { Operation := "replace", Path := "/key", Value := .str "q" }]
    ∧ (editFile true bytesA twoOpDiff [okEvent "/tmp/ldc9" bytesB]
        ["c"]).outcome
      = .patch
          { Patch :=
              [{ Op := "replace", Path := "/name", Value := some (.str "q") },
               { Op := "replace", Path := "/key", Value := some (.str "q") }],
            Comment := "c" } := by
  exact ⟨rfl, rfl⟩

/-- C7: editor resolution failure is fatal and happens before any
scratch file is created (nothing created, no input consumed), and a
failure to spawn the editor or to wait for its exit is also fatal,
returning immediately without consuming any retry-prompt input. -/
theorem C7_fatal_launch_errors
    (cp : Bytes → Bytes → Except String (List JsonPatchOperation))
    (original data : Bytes) (name : String) (events : List IterEvent)
    (inputs : List String) :
    (editFile false original cp events inputs).outcome
      = .fatalErr .resolveErr
    ∧ (editFile false original cp events inputs).created = []
    ∧ (editFile false original cp events inputs).inputsLeft = inputs
    ∧ (editFile true original cp
        ({ okEvent name data with spawnOk := false } :: events)
        inputs).outcome = .fatalErr .spawnErr
    ∧ (editFile true original cp
        ({ okEvent name data with spawnOk := false } :: events)
        inputs).inputsLeft = inputs
    ∧ (editFile true original cp
        ({ okEvent name data with waitOk := false } :: events)
        inputs).outcome = .fatalErr .waitErr
    ∧ (editFile true original cp
        ({ okEvent name data with waitOk := false } :: events)
        inputs).inputsLeft = inputs := by
  refine ⟨rfl, rfl, rfl, ?_, ?_, ?_, ?_⟩ <;>
    simp [editFile, editLoop, okEvent, initState]

/-- C8: for every input line read at a yes/no prompt, the answer is yes
iff the line is empty or its lowercase form equals `"y"`; every other
non-empty input — e.g. `"n"`, `"N"`, `"yes"` — is a no. -/
theorem C8_yes_iff (val : String) :
    (yesOrNo val = true ↔ val = "" ∨ toLowerStr val = "y")
    ∧ yesOrNo "" = true ∧ yesOrNo "y" = true ∧ yesOrNo "Y" = true
    ∧ yesOrNo "n" = false ∧ yesOrNo "N" = false ∧ yesOrNo "yes" = false := by
  refine ⟨?_, by decide, by decide, by decide, by decide, by decide, by decide⟩
  simp [yesOrNo]

/-- C9: `deleteProject` never issues the `DeleteProject` API call: a
successful lookup returns early before confirmation or deletion, and a
nil lookup dereferences the nil project pointer at the confirmation
step, so the delete request is unreachable on every path. -/
theorem C9_delete_unreachable (projectArg : Option Project)
    (flag : Option Bool) (input : String) :
    deleteProject projectArg flag input
      = (match projectArg with
         | some _ => DeleteOutcome.earlyReturn
         | none => DeleteOutcome.nilPanic)
    ∧ deleteProject projectArg flag input ≠ DeleteOutcome.deleteCalled := by
  cases projectArg <;> simp [deleteProject, derefKey]

/-- C10: when the interactive flag is not set to `true`, `confirmDelete`
returns `true` without prompting or reading input; in interactive mode
it prompts, reads a line, and returns `true` iff the line equals the
expected value exactly (case-sensitive string equality). -/
theorem C10_confirm (flag : Option Bool) (input expected : String) :
    confirmDelete flag input expected
      = (match flag with
         | some true =>
           { result := input = expected, prompted := true, readInput := true }
         | _ => { result := true, prompted := false, readInput := false })
    ∧ ((confirmDelete (some true) input expected).result = true
        ↔ input = expected) := by
  constructor
  · cases flag with
    | none => simp [confirmDelete, isInteractive]
    | some b => cases b <;> simp [confirmDelete, isInteractive]
  · simp [confirmDelete, isInteractive]

end Ldc
